import Mathlib

/-
Verification development for the voice-assistant webhook backend.

The repository has two Python source variants:
  * `main (2).py` (the redis/YClients action dispatcher) — modelled in namespace `Vox`;
  * `main.py` (the in-memory session store with the difflib FAQ matcher) —
    modelled in namespace `Main`.

Machine-level conventions of the embedding:
  * Python exceptions are modelled with `Except Unit` (the error payloads are
    never inspected by the translated code paths);
  * outbound network operations (scheduling provider, language model, JSON
    parsing by the standard library) are oracle parameters: the translated
    control flow around them is taken verbatim from the source;
  * Python strings are Lean `String`s (a structure over `List Char`); the
    handful of Python string methods used by the source (`strip`, `lower`,
    `startswith`, `replace`, `join`, `int()`, indexing with fallback) are
    re-implemented below on the character-list representation;
  * `difflib.get_close_matches` / `SequenceMatcher` (standard library,
    invoked by `find_faq_answer`) are re-implemented from their documented
    no-junk behaviour: the Ratcliff/Obershelp matching-block recursion with
    the longest match breaking ties towards the earliest start in the first
    and then the second sequence, the two quick-ratio upper-bound gates, and
    the best-of-`(score, string)` selection of `heapq.nlargest`.  The
    `autojunk` popular-element heuristic (which only activates when the
    second sequence has at least 200 elements) is not modelled.  Similarity
    scores are exact rationals rather than IEEE floats; the default cutoff
    0.6 is the rational 3/5.
-/

/-! ## Python string primitives -/

/-- Python `s.strip(junk)` for a character predicate: drop matching characters
from both ends. -/
def pyStripP (p : Char → Bool) (s : String) : String :=
  ⟨((s.data.dropWhile p).reverse.dropWhile p).reverse⟩

/-- Python `s.strip()` (whitespace from both ends). -/
def pyStripWs (s : String) : String :=
  pyStripP Char.isWhitespace s

/-- Python `s.strip("()")`. -/
def pyStripParens (s : String) : String :=
  pyStripP (fun c => c == '(' || c == ')') s

/-- Python `str.lower` on one character, covering the scripts this
repository's data uses (basic Latin and Cyrillic; other characters are left
unchanged). -/
def pyLowerChar (c : Char) : Char :=
  if 'A' ≤ c ∧ c ≤ 'Z' then Char.ofNat (c.toNat + 32)
  else if 'А' ≤ c ∧ c ≤ 'Я' then Char.ofNat (c.toNat + 32)
  else if c = 'Ё' then 'ё'
  else c

/-- Python `s.lower()` (per-character case folding). -/
def pyLower (s : String) : String :=
  ⟨s.data.map pyLowerChar⟩

/-- Python `s.startswith(pre)`. -/
def pyStartsWith (pre s : String) : Bool :=
  pre.data.isPrefixOf s.data

/-- Python `sep.join(parts)`. -/
def pyJoin (sep : String) : List String → String
  | [] => ""
  | [x] => x
  | x :: y :: rest => x ++ sep ++ pyJoin sep (y :: rest)

/-- Python `s.replace("book", "")` on the character list: scan left to right,
on a match skip the pattern and continue after it. -/
def removeBookData : List Char → List Char
  | 'b' :: 'o' :: 'o' :: 'k' :: rest => removeBookData rest
  | c :: rest => c :: removeBookData rest
  | [] => []

/-- Python `s.replace("book", "")`. -/
def removeBook (s : String) : String :=
  ⟨removeBookData s.data⟩

/-- Value of a digit string (helper for `pyInt`). -/
def digitsVal (cs : List Char) : Nat :=
  cs.foldl (fun n c => n * 10 + (c.toNat - 48)) 0

/-- Digit-string parser: `some` exactly when the list is a nonempty run of
decimal digits. -/
def digitsToNatOpt (cs : List Char) : Option Nat :=
  if cs ≠ [] ∧ cs.all Char.isDigit = true then some (digitsVal cs) else none

/-- Python `int(s)`: optional surrounding whitespace, optional sign, decimal
digits; `none` models the `ValueError`. -/
def pyInt (s : String) : Option Int :=
  match (pyStripWs s).data with
  | '-' :: rest => (digitsToNatOpt rest).map (fun n => -(n : Int))
  | '+' :: rest => (digitsToNatOpt rest).map (fun n => (n : Int))
  | cs => (digitsToNatOpt cs).map (fun n => (n : Int))

/-- Python list indexing `l[i]` with negative-index support; `none` models the
`IndexError`. -/
def pyListGet {α : Type} (l : List α) (i : Int) : Option α :=
  if 0 ≤ i then l[i.toNat]?
  else if 0 ≤ i + (l.length : Int) then l[(i + (l.length : Int)).toNat]?
  else none

/-! ## difflib model (SequenceMatcher / get_close_matches) -/

/-- Length of the longest common prefix of two character lists. -/
def lcpLen : List Char → List Char → Nat
  | a :: as, b :: bs => if a = b then lcpLen as bs + 1 else 0
  | _, _ => 0

/-- One candidate step of `find_longest_match`: at positions `(i, j)` the
match length is the common prefix length of the two suffixes; a strictly
longer match replaces the accumulator (so ties keep the earliest `(i, j)`). -/
def matchStep (a b : List Char) (i : Nat) (acc : Nat × Nat × Nat) (j : Nat) : Nat × Nat × Nat :=
  let k := lcpLen (a.drop i) (b.drop j)
  if acc.2.2 < k then (i, j, k) else acc

/-- Scan of all second-sequence positions for a fixed first-sequence position. -/
def outerStep (a b : List Char) (acc : Nat × Nat × Nat) (i : Nat) : Nat × Nat × Nat :=
  (List.range b.length).foldl (matchStep a b i) acc

/-- `SequenceMatcher.find_longest_match` over the whole of both sequences
(no junk): the longest matching block `(i, j, size)`, ties broken towards the
smallest `i`, then the smallest `j`; `(0, 0, 0)` when there is no match. -/
def bestMatch (a b : List Char) : Nat × Nat × Nat :=
  (List.range a.length).foldl (outerStep a b) (0, 0, 0)

/-- Soundness invariant of `bestMatch`: the reported block lies inside both
sequences and its two fragments agree. -/
def MatchValid (a b : List Char) (m : Nat × Nat × Nat) : Prop :=
  m.1 + m.2.2 ≤ a.length ∧ m.2.1 + m.2.2 ≤ b.length ∧
    (a.drop m.1).take m.2.2 = (b.drop m.2.1).take m.2.2

/-- Total size of the Ratcliff/Obershelp matching blocks, with explicit fuel
(any fuel above the length of the first list is exact; termination of the
recursion is by the strictly shrinking first list). -/
def ratTotalF : Nat → List Char → List Char → Nat
  | 0, _, _ => 0
  | fuel + 1, a, b =>
    let m := bestMatch a b
    if m.2.2 = 0 then 0
    else
      m.2.2 + ratTotalF fuel (a.take m.1) (b.take m.2.1)
            + ratTotalF fuel (a.drop (m.1 + m.2.2)) (b.drop (m.2.1 + m.2.2))

/-- Total size of the matching blocks of `SequenceMatcher(None, a, b)`. -/
def ratTotal (a b : List Char) : Nat :=
  ratTotalF (a.length + 1) a b

/-- difflib `_calculate_ratio`: `2 * matches / length`, and 1 when both
sequences are empty. -/
def calcRatioVal (m length : Nat) : ℚ :=
  if length = 0 then 1 else 2 * (m : ℚ) / (length : ℚ)

/-- `SequenceMatcher.ratio()`. -/
def ratioVal (a b : List Char) : ℚ :=
  calcRatioVal (ratTotal a b) (a.length + b.length)

/-- Multiset-intersection size used by `quick_ratio`. -/
def quickRatioTotal (a b : List Char) : Nat :=
  a.dedup.foldl (fun acc c => acc + min (a.count c) (b.count c)) 0

/-- `SequenceMatcher.quick_ratio()` (an upper bound on `ratio`). -/
def quickRatioVal (a b : List Char) : ℚ :=
  calcRatioVal (quickRatioTotal a b) (a.length + b.length)

/-- `SequenceMatcher.real_quick_ratio()` (a cheaper upper bound). -/
def realQuickRatioVal (a b : List Char) : ℚ :=
  calcRatioVal (min a.length b.length) (a.length + b.length)

/-- Python string comparison `x < y` (lexicographic by code point), used by
the tuple comparison inside `heapq.nlargest`. -/
def strLtChars : List Char → List Char → Bool
  | [], [] => false
  | [], _ :: _ => true
  | _ :: _, [] => false
  | a :: as, b :: bs => if a < b then true else if b < a then false else strLtChars as bs

/-- Cutoff filter of `get_close_matches`: a possibility survives when all
three similarity gates reach the cutoff (checked cheapest first, as in the
source). -/
def gcmCandidates (word : List Char) (poss : List (List Char)) (cutoff : ℚ) : List (List Char) :=
  poss.filter (fun x =>
    decide (cutoff ≤ realQuickRatioVal x word) &&
    decide (cutoff ≤ quickRatioVal x word) &&
    decide (cutoff ≤ ratioVal x word))

/-- Selection step of `heapq.nlargest(1, [(score, x), ...])`: a challenger
wins only when strictly larger in the lexicographic `(score, string)` order,
so the first maximal element is kept. -/
def gcmStep (word : List Char) (acc : Option (List Char)) (x : List Char) : Option (List Char) :=
  match acc with
  | none => some x
  | some y =>
    if ratioVal y word < ratioVal x word ∨
        (ratioVal y word = ratioVal x word ∧ strLtChars y x = true) then some x
    else some y

/-- `difflib.get_close_matches(word, poss, n=1, cutoff)`, returning the single
best match if any possibility passes the cutoff. -/
def gcmPick (word : List Char) (cands : List (List Char)) : Option (List Char) :=
  cands.foldl (gcmStep word) none

/-! ## Shared data model -/

/-- FAQ entry (`faq.json` item): a question/answer pair. -/
structure FaqEntry where
  question : String
  answer : String
deriving DecidableEq

/-- Bookable appointment slot.  The structure follows the spec's Slot data
model (the scheduling provider's JSON objects carry a displayable time label
and the service/staff/timestamp data); the dispatcher code reads only the
time label, with Python's `s.get("time", "время")` default modelled by the
optional field. -/
structure Slot where
  time? : Option String
  service_id : String
  staff_id : String
  ts : Nat
deriving DecidableEq

/-- Payload of `YClientsAdapter.create_record`: the booking request posted to
the scheduling provider (the `datetime` wire string is represented by the
unix timestamp it is formatted from). -/
structure BookingRequest where
  phone : String
  fullname : String
  service_id : String
  staff_id : String
  ts_unix : Nat
  api_id : String
deriving DecidableEq

namespace Vox

/-- Configured id lists (`YCLIENTS_SERVICE_IDS` / `YCLIENTS_STAFF_IDS`). -/
structure Config where
  service_ids : List String
  staff_ids : List String

/-- Result of a Python function body: a returned value, a raised exception,
or the implicit `None` return (reachable in `retry_request` only when
`retries = 0`). -/
inductive PyRet (ε α : Type) where
  | val (a : α)
  | exn (e : ε)
  | noneRet
deriving DecidableEq

/-- Loop of `retry_request`, from attempt index `i` with `rem + 1` iterations
remaining; returns the result, the number of invocations, and the list of
backoff delays slept (in order). -/
def retryAux {ε α : Type} (outcomes : Nat → Except ε α) (delay : Nat) :
    Nat → Nat → PyRet ε α × Nat × List Nat
  | _, 0 => (.noneRet, 0, [])
  | i, rem + 1 =>
    match outcomes i with
    | .ok a => (.val a, 1, [])
    | .error e =>
      if rem = 0 then (.exn e, 1, [])
      else
        let r := retryAux outcomes delay (i + 1) rem
        (r.1, r.2.1 + 1, delay * 2 ^ i :: r.2.2)

/-- `retry_request(fn, retries, delay)`: the operation is modelled by the
outcome of each attempt (0-indexed). -/
def retry_request {ε α : Type} (outcomes : Nat → Except ε α) (retries delay : Nat) :
    PyRet ε α × Nat × List Nat :=
  retryAux outcomes delay 0 retries

/-- `YClientsAdapter.get_slots` (the network body `_do` is the oracle,
already truncated to its first three slots as in the source; wrapped in
`retry_request` with the default 3 attempts and base delay 1). -/
def get_slots (slotAttempts : String → String → Nat → Except Unit (List Slot))
    (sid stf : String) : Except Unit (List Slot) :=
  match (retry_request (slotAttempts sid stf) 3 1).1 with
  | .val s => .ok s
  | .exn e => .error e
  | .noneRet => .error ()

/-- `YClientsAdapter.create_record` (the network body is the oracle yielding
the provider result's success flag; wrapped in `retry_request`). -/
def create_record (recordAttempts : BookingRequest → Nat → Except Unit Bool)
    (req : BookingRequest) : Except Unit Bool :=
  match (retry_request (recordAttempts req) 3 1).1 with
  | .val b => .ok b
  | .exn e => .error e
  | .noneRet => .error ()

/-- Inner loop of the `show_slots` branch: iterate the staff ids for one
service id, extending the accumulator; a raised exception aborts. -/
def collect_loop2 (slotAttempts : String → String → Nat → Except Unit (List Slot))
    (sid : String) (staffs : List String) (acc : List Slot) : Except Unit (List Slot) :=
  match staffs with
  | [] => .ok acc
  | stf :: rest =>
    match get_slots slotAttempts sid stf with
    | .ok s => collect_loop2 slotAttempts sid rest (acc ++ s)
    | .error e => .error e

/-- Outer loop of the `show_slots` branch over the configured service ids. -/
def collect_loop1 (slotAttempts : String → String → Nat → Except Unit (List Slot))
    (svcs staffs : List String) (acc : List Slot) : Except Unit (List Slot) :=
  match svcs with
  | [] => .ok acc
  | sid :: rest =>
    match collect_loop2 slotAttempts sid staffs acc with
    | .ok acc2 => collect_loop1 slotAttempts rest staffs acc2
    | .error e => .error e

/-- Index argument of a `book...` directive:
`int(act.replace("book", "").strip("()") or 0)`. -/
def parseBookArg (act : String) : Option Int :=
  let s := pyStripParens (removeBook act)
  if s.data = [] then some 0 else pyInt s

/-- Observable outcome of the directive dispatch (`HANDLE ACTIONS` section of
the webhook): the reply text, the `create_record` requests issued, the slot
list written to the cache with its expiry, and — as a ghost observation — the
`choice` local computed in the booking branch. -/
structure Out where
  reply : String
  bookings : List BookingRequest
  slotsCached : Option (List Slot)
  cacheTtl : Option Nat
  choice? : Option Slot
deriving DecidableEq

/-- The `HANDLE ACTIONS` dispatch of the webhook (part_000 lines 230-259):
given the directive tag `act` and its reply text, the cached slot list for
this call id (`none` when the redis key is absent), and the oracles for the
scheduling provider. -/
def handle_action (cfg : Config)
    (slotAttempts : String → String → Nat → Except Unit (List Slot))
    (recordAttempts : BookingRequest → Nat → Except Unit Bool)
    (cache : Option (List Slot)) (caller call_id : String) (now : Nat)
    (act text : String) : Except Unit Out :=
  if act = "show_slots" then
    match collect_loop1 slotAttempts cfg.service_ids cfg.staff_ids [] with
    | .error e => .error e
    | .ok slots_all =>
      .ok { reply := "Вот ближайшие доступные слоты: " ++
              pyJoin ", " ((slots_all.take 3).map (fun s => s.time?.getD "время")),
            bookings := [], slotsCached := some slots_all, cacheTtl := some 3600,
            choice? := none }
  else if pyStartsWith "book" act then
    match cache with
    | none =>
      .ok { reply := text, bookings := [], slotsCached := none, cacheTtl := none,
            choice? := none }
    | some slots =>
      match parseBookArg act with
      | none => .error ()
      | some idx =>
        match (if idx < (slots.length : Int) then pyListGet slots idx else pyListGet slots 0) with
        | none => .error ()
        | some choice =>
          match cfg.service_ids[0]?, cfg.staff_ids[0]? with
          | some sid0, some stf0 =>
            match create_record recordAttempts
                { phone := caller, fullname := "Гость", service_id := sid0,
                  staff_id := stf0, ts_unix := now + 3600, api_id := call_id } with
            | .error e => .error e
            | .ok success =>
              .ok { reply := if success then "Запись успешно создана!"
                             else "Не удалось создать запись.",
                    bookings := [{ phone := caller, fullname := "Гость", service_id := sid0,
                                   staff_id := stf0, ts_unix := now + 3600, api_id := call_id }],
                    slotsCached := none, cacheTtl := none, choice? := some choice }
          | _, _ => .error ()
  else if act = "goodbye" then
    .ok { reply := "Спасибо за звонок! До свидания.", bookings := [], slotsCached := none,
          cacheTtl := none, choice? := none }
  else
    .ok { reply := text, bookings := [], slotsCached := none, cacheTtl := none,
          choice? := none }

/-- Shape of a value produced by `json.loads` as far as the webhook inspects
it: a JSON object with optional `act` / `text` / `hints` members, or any
non-object value (on which the webhook's `.get` calls would raise). -/
inductive PyJson where
  | obj (act? : Option String) (text? : Option String) (hints? : Option (List String))
  | nonobj
deriving DecidableEq

/-- `ask_gpt` of part_000: strip the raw model output, try `json.loads`
(the oracle; `none` models the parse exception), and on failure fall back to
the `say` directive carrying the stripped content. -/
def ask_gpt (jsonLoads : String → Option PyJson) (raw : String) : PyJson :=
  let content := pyStripWs raw
  match jsonLoads content with
  | some v => v
  | none => .obj (some "say") (some content) (some [])

/-- Webhook response value of part_000. -/
inductive Response where
  | cleared
  | okStatus
  | spoken (reply : String) (bookings : List BookingRequest) (slotsCached : Option (List Slot))
deriving DecidableEq

/-- The part_000 webhook handler.  `userText?` is `none` when no
`recording_url` is present and otherwise the speech-to-text result for the
downloaded recording; `llmRaw` is the raw model completion for this turn.
A `.error` result models an exception escaping the handler. -/
def webhook (cfg : Config)
    (slotAttempts : String → String → Nat → Except Unit (List Slot))
    (recordAttempts : BookingRequest → Nat → Except Unit Bool)
    (jsonLoads : String → Option PyJson)
    (cache : Option (List Slot)) (event caller call_id : String)
    (userText? : Option String) (llmRaw : String) (now : Nat) : Except Unit Response :=
  if event = "End" then .ok .cleared
  else if event = "SpeechCaptured" then
    match userText? with
    | none => .ok .okStatus
    | some t =>
      if t = "" then
        .ok (.spoken "Извините, я не расслышал. Повторите, пожалуйста." [] none)
      else
        match ask_gpt jsonLoads llmRaw with
        | .obj act? text? _ =>
          match handle_action cfg slotAttempts recordAttempts cache caller call_id now
              (act?.getD "say") (text?.getD "") with
          | .ok out => .ok (.spoken out.reply out.bookings out.slotsCached)
          | .error e => .error e
        | .nonobj => .error ()
  else .ok .okStatus

end Vox

namespace Main

/-- Conversation message (`{"role": ..., "content": ...}`). -/
structure Msg where
  role : String
  content : String
deriving DecidableEq

/-- The module-level session maps of main.py: `SESSIONS` is a
`defaultdict(list)` (lookup of an absent caller yields `[]`), `LAST_ACTIVITY`
a plain dict. -/
structure State where
  sessions : String → List Msg
  lastActivity : String → Option Nat

/-- `SESSION_TTL = 300  # 5 минут`. -/
def SESSION_TTL : Nat := 300

/-- `update_session`: append a turn and refresh the activity timestamp. -/
def update_session (st : State) (caller role content : String) (now : Nat) : State :=
  { sessions := fun c => if c = caller then st.sessions c ++ [⟨role, content⟩] else st.sessions c,
    lastActivity := fun c => if c = caller then some now else st.lastActivity c }

/-- `clear_session`: pop both maps for the caller (idempotent). -/
def clear_session (st : State) (caller : String) : State :=
  { sessions := fun c => if c = caller then [] else st.sessions c,
    lastActivity := fun c => if c = caller then none else st.lastActivity c }

/-- `find_faq_answer(user_text, cutoff=0.6)` of main.py: case-fold, run
`difflib.get_close_matches` over the case-folded stored questions, and return
the answer of the first FAQ entry whose folded question equals the match. -/
def find_faq_answer (faq : List FaqEntry) (userText : String) (cutoff : ℚ) : Option String :=
  let userNorm := (pyLower userText).data
  let questions := faq.map (fun q => (pyLower q.question).data)
  match gcmPick userNorm (gcmCandidates userNorm questions cutoff) with
  | some m =>
    match faq.find? (fun q => decide ((pyLower q.question).data = m)) with
    | some q => some q.answer
    | none => none
  | none => none

/-- Result of `ask_gpt` of main.py, with the messages sent to the model kept
as a ghost observation. -/
structure GptOut where
  answer : String
  state : State
  messagesSent : List Msg

/-- `ask_gpt` of main.py: append the user turn, send the system prompt plus
the whole session to the model (the oracle), append the raw answer, and
return the stripped answer.  No expiry check of any kind is performed on the
session before it is read. -/
def ask_gpt (llm : List Msg → String) (prompt : String) (st : State)
    (caller userText : String) (now : Nat) : GptOut :=
  let st1 := update_session st caller "user" userText now
  let messages := ⟨"system", prompt⟩ :: st1.sessions caller
  let answer := llm messages
  let st2 := update_session st1 caller "assistant" answer now
  { answer := pyStripWs answer, state := st2, messagesSent := messages }

/-- Webhook response value of main.py. -/
inductive Response where
  | cleared
  | okStatus
  | spoken (text : String)
deriving DecidableEq

/-- Observable outcome of the main.py webhook: the response, the session
state afterwards, and — as a ghost observation — how many language-model
completions were requested. -/
structure Out where
  response : Response
  state : State
  llmCalls : Nat

/-- The main.py webhook handler.  `userText?` is `none` when no
`recording_url` is present, otherwise the speech-to-text result. -/
def webhook (faq : List FaqEntry) (prompt : String) (llm : List Msg → String)
    (st : State) (event caller : String) (userText? : Option String) (now : Nat) : Out :=
  if event = "End" then ⟨.cleared, clear_session st caller, 0⟩
  else
    match userText? with
    | none => ⟨.okStatus, st, 0⟩
    | some t =>
      if t = "" then ⟨.spoken "Извините, я не расслышал. Повторите, пожалуйста.", st, 0⟩
      else
        match find_faq_answer faq t (3 / 5) with
        | some ans => ⟨.spoken ans, st, 0⟩
        | none =>
          let g := ask_gpt llm prompt st caller t now
          ⟨.spoken g.answer, g.state, 1⟩

end Main

/-! ## Lemmas about the difflib model -/

theorem stringDataInj {s t : String} (h : s.data = t.data) : s = t :=
  congrArg String.mk h

theorem lcpLen_le_left : ∀ a b : List Char, lcpLen a b ≤ a.length := by
  intro a
  induction a with
  | nil => intro b; cases b <;> simp [lcpLen]
  | cons x xs ih =>
    intro b
    cases b with
    | nil => simp [lcpLen]
    | cons y ys =>
      by_cases h : x = y
      · simp only [lcpLen, if_pos h, List.length_cons]
        exact Nat.succ_le_succ (ih ys)
      · simp only [lcpLen, if_neg h]
        exact Nat.zero_le _

theorem lcpLen_le_right : ∀ a b : List Char, lcpLen a b ≤ b.length := by
  intro a
  induction a with
  | nil => intro b; cases b <;> simp [lcpLen]
  | cons x xs ih =>
    intro b
    cases b with
    | nil => simp [lcpLen]
    | cons y ys =>
      by_cases h : x = y
      · simp only [lcpLen, if_pos h, List.length_cons]
        exact Nat.succ_le_succ (ih ys)
      · simp only [lcpLen, if_neg h]
        exact Nat.zero_le _

theorem lcpLen_take_eq : ∀ a b : List Char, a.take (lcpLen a b) = b.take (lcpLen a b) := by
  intro a
  induction a with
  | nil => intro b; cases b <;> simp [lcpLen]
  | cons x xs ih =>
    intro b
    cases b with
    | nil => simp [lcpLen]
    | cons y ys =>
      by_cases h : x = y
      · simp only [lcpLen, if_pos h, List.take_succ_cons]
        rw [h, ih ys]
      · simp [lcpLen, h]

theorem lcpLen_self : ∀ a : List Char, lcpLen a a = a.length := by
  intro a
  induction a with
  | nil => rfl
  | cons x xs ih => simp [lcpLen, ih]

theorem matchStep_k_mono (a b : List Char) (i : Nat) (acc : Nat × Nat × Nat) (j : Nat) :
    acc.2.2 ≤ (matchStep a b i acc j).2.2 := by
  unfold matchStep
  dsimp only
  split
  · next h => exact Nat.le_of_lt h
  · exact le_refl _

theorem foldl_matchStep_k_mono (a b : List Char) (i : Nat) :
    ∀ (js : List Nat) (acc : Nat × Nat × Nat),
      acc.2.2 ≤ (js.foldl (matchStep a b i) acc).2.2 := by
  intro js
  induction js with
  | nil => intro acc; exact le_refl _
  | cons j rest ih =>
    intro acc
    rw [List.foldl_cons]
    exact le_trans (matchStep_k_mono a b i acc j) (ih _)

theorem outerStep_k_mono (a b : List Char) (acc : Nat × Nat × Nat) (i : Nat) :
    acc.2.2 ≤ (outerStep a b acc i).2.2 :=
  foldl_matchStep_k_mono a b i _ acc

theorem foldl_outerStep_k_mono (a b : List Char) :
    ∀ (is : List Nat) (acc : Nat × Nat × Nat),
      acc.2.2 ≤ (is.foldl (outerStep a b) acc).2.2 := by
  intro is
  induction is with
  | nil => intro acc; exact le_refl _
  | cons i rest ih =>
    intro acc
    rw [List.foldl_cons]
    exact le_trans (outerStep_k_mono a b acc i) (ih _)

theorem matchStep_valid (a b : List Char) (i j : Nat) (acc : Nat × Nat × Nat)
    (hi : i ≤ a.length) (hj : j ≤ b.length) (hacc : MatchValid a b acc) :
    MatchValid a b (matchStep a b i acc j) := by
  unfold matchStep
  dsimp only
  split
  · refine ⟨?_, ?_, ?_⟩
    · have h1 := lcpLen_le_left (a.drop i) (b.drop j)
      rw [List.length_drop] at h1
      dsimp only
      omega
    · have h1 := lcpLen_le_right (a.drop i) (b.drop j)
      rw [List.length_drop] at h1
      dsimp only
      omega
    · exact lcpLen_take_eq _ _
  · exact hacc

theorem foldl_matchStep_valid (a b : List Char) (i : Nat) (hi : i ≤ a.length) :
    ∀ (js : List Nat), (∀ j ∈ js, j ≤ b.length) →
      ∀ acc, MatchValid a b acc → MatchValid a b (js.foldl (matchStep a b i) acc) := by
  intro js
  induction js with
  | nil => intro _ acc hacc; exact hacc
  | cons j rest ih =>
    intro hjs acc hacc
    rw [List.foldl_cons]
    exact ih (fun z hz => hjs z (List.mem_cons_of_mem j hz))
      _ (matchStep_valid a b i j acc hi (hjs j (List.mem_cons_self j rest)) hacc)

theorem outerStep_valid (a b : List Char) (acc : Nat × Nat × Nat) (i : Nat)
    (hi : i ≤ a.length) (hacc : MatchValid a b acc) :
    MatchValid a b (outerStep a b acc i) :=
  foldl_matchStep_valid a b i hi (List.range b.length)
    (fun j hj => le_of_lt (List.mem_range.mp hj)) acc hacc

theorem bestMatch_valid (a b : List Char) : MatchValid a b (bestMatch a b) := by
  unfold bestMatch
  have haux : ∀ (is : List Nat), (∀ i ∈ is, i ≤ a.length) →
      ∀ acc, MatchValid a b acc → MatchValid a b (is.foldl (outerStep a b) acc) := by
    intro is
    induction is with
    | nil => intro _ acc hacc; exact hacc
    | cons i rest ih =>
      intro his acc hacc
      rw [List.foldl_cons]
      exact ih (fun z hz => his z (List.mem_cons_of_mem i hz))
        _ (outerStep_valid a b acc i (his i (List.mem_cons_self i rest)) hacc)
  exact haux (List.range a.length) (fun i hi => le_of_lt (List.mem_range.mp hi))
    (0, 0, 0) ⟨by simp, by simp, by simp⟩

theorem bestMatch_self (a : List Char) (ha : a ≠ []) : bestMatch a a = (0, 0, a.length) := by
  obtain ⟨n, hn⟩ : ∃ n, a.length = n + 1 := by
    cases a with
    | nil => exact absurd rfl ha
    | cons x xs => exact ⟨xs.length, rfl⟩
  have hk : a.length ≤ (bestMatch a a).2.2 := by
    unfold bestMatch
    rw [hn, List.range_succ_eq_map, List.foldl_cons]
    refine le_trans ?_ (foldl_outerStep_k_mono a a _ _)
    unfold outerStep
    rw [hn, List.range_succ_eq_map, List.foldl_cons]
    refine le_trans ?_ (foldl_matchStep_k_mono a a 0 _ _)
    simp only [matchStep, List.drop_zero, lcpLen_self]
    have h0 : ((0, 0, 0) : Nat × Nat × Nat).2.2 < a.length := by
      show 0 < a.length
      omega
    rw [if_pos h0]
    show n + 1 ≤ a.length
    omega
  have hv := bestMatch_valid a a
  rcases hbm : bestMatch a a with ⟨i, j, k⟩
  rw [hbm] at hv hk
  simp only [MatchValid] at hv
  obtain ⟨hv1, hv2, _⟩ := hv
  simp only at hv1 hv2 hk
  have hi : i = 0 := by omega
  have hj : j = 0 := by omega
  have hkk : k = a.length := by omega
  rw [hi, hj, hkk]

theorem ratTotalF_nil (fuel : Nat) : ratTotalF fuel [] [] = 0 := by
  cases fuel <;> rfl

theorem ratTotalF_self (fuel : Nat) (a : List Char) : ratTotalF (fuel + 1) a a = a.length := by
  by_cases ha : a = []
  · subst ha
    exact ratTotalF_nil _
  · have hb := bestMatch_self a ha
    simp only [ratTotalF, hb]
    have hlen : a.length ≠ 0 := fun h => ha (List.length_eq_zero.mp h)
    rw [if_neg hlen]
    simp [List.take_zero, Nat.zero_add, List.drop_length, ratTotalF_nil]

theorem ratTotalF_le_left (fuel : Nat) : ∀ (a b : List Char), ratTotalF fuel a b ≤ a.length := by
  induction fuel with
  | zero =>
    intro a b
    show (0 : Nat) ≤ a.length
    exact Nat.zero_le _
  | succ fuel ih =>
    intro a b
    have hv := bestMatch_valid a b
    rcases hbm : bestMatch a b with ⟨i, j, k⟩
    rw [hbm] at hv
    simp only [MatchValid] at hv
    obtain ⟨h1, h2, _⟩ := hv
    simp only [ratTotalF, hbm]
    split
    · exact Nat.zero_le _
    · next hk =>
      have t1 := ih (a.take i) (b.take j)
      have t2 := ih (a.drop (i + k)) (b.drop (j + k))
      rw [List.length_take] at t1
      rw [List.length_drop] at t2
      have hia : i ≤ a.length := by omega
      rw [Nat.min_eq_left hia] at t1
      omega

theorem ratTotalF_le_right (fuel : Nat) : ∀ (a b : List Char), ratTotalF fuel a b ≤ b.length := by
  induction fuel with
  | zero =>
    intro a b
    show (0 : Nat) ≤ b.length
    exact Nat.zero_le _
  | succ fuel ih =>
    intro a b
    have hv := bestMatch_valid a b
    rcases hbm : bestMatch a b with ⟨i, j, k⟩
    rw [hbm] at hv
    simp only [MatchValid] at hv
    obtain ⟨h1, h2, _⟩ := hv
    simp only [ratTotalF, hbm]
    split
    · exact Nat.zero_le _
    · next hk =>
      have t1 := ih (a.take i) (b.take j)
      have t2 := ih (a.drop (i + k)) (b.drop (j + k))
      rw [List.length_take] at t1
      rw [List.length_drop] at t2
      have hjb : j ≤ b.length := by omega
      rw [Nat.min_eq_left hjb] at t1
      omega

theorem ratTotalF_full_eq (fuel : Nat) :
    ∀ (a b : List Char), ratTotalF fuel a b = a.length → ratTotalF fuel a b = b.length → a = b := by
  induction fuel with
  | zero =>
    intro a b h1 h2
    have hz : ratTotalF 0 a b = 0 := rfl
    rw [hz] at h1 h2
    rw [List.length_eq_zero.mp h1.symm, List.length_eq_zero.mp h2.symm]
  | succ fuel ih =>
    intro a b h1 h2
    have hv := bestMatch_valid a b
    rcases hbm : bestMatch a b with ⟨i, j, k⟩
    rw [hbm] at hv
    simp only [MatchValid] at hv
    obtain ⟨hva, hvb, hveq⟩ := hv
    simp only [ratTotalF, hbm] at h1 h2
    by_cases hk : k = 0
    · rw [if_pos hk] at h1 h2
      rw [List.length_eq_zero.mp h1.symm, List.length_eq_zero.mp h2.symm]
    · rw [if_neg hk] at h1 h2
      have u1 := ratTotalF_le_left fuel (a.take i) (b.take j)
      have u2 := ratTotalF_le_right fuel (a.take i) (b.take j)
      have u3 := ratTotalF_le_left fuel (a.drop (i + k)) (b.drop (j + k))
      have u4 := ratTotalF_le_right fuel (a.drop (i + k)) (b.drop (j + k))
      rw [List.length_take] at u1 u2
      rw [List.length_drop] at u3 u4
      have hia : i ≤ a.length := by omega
      have hjb : j ≤ b.length := by omega
      rw [Nat.min_eq_left hia] at u1
      rw [Nat.min_eq_left hjb] at u2
      have ht : a.take i = b.take j := by
        apply ih
        · rw [List.length_take, Nat.min_eq_left hia]
          omega
        · rw [List.length_take, Nat.min_eq_left hjb]
          omega
      have hd : a.drop (i + k) = b.drop (j + k) := by
        apply ih
        · rw [List.length_drop]
          omega
        · rw [List.length_drop]
          omega
      have hd2 : (a.drop i).drop k = (b.drop j).drop k := by
        rw [List.drop_drop, List.drop_drop]
        exact hd
      calc a = a.take i ++ a.drop i := (List.take_append_drop i a).symm
        _ = a.take i ++ ((a.drop i).take k ++ (a.drop i).drop k) := by
              rw [List.take_append_drop k (a.drop i)]
        _ = b.take j ++ ((b.drop j).take k ++ (b.drop j).drop k) := by
              rw [ht, hveq, hd2]
        _ = b.take j ++ b.drop j := by rw [List.take_append_drop k (b.drop j)]
        _ = b := List.take_append_drop j b

theorem ratTotal_self (a : List Char) : ratTotal a a = a.length :=
  ratTotalF_self a.length a

theorem ratTotal_full_eq (a b : List Char) (h1 : ratTotal a b = a.length)
    (h2 : ratTotal a b = b.length) : a = b :=
  ratTotalF_full_eq (a.length + 1) a b h1 h2

theorem ratTotal_le_left (a b : List Char) : ratTotal a b ≤ a.length :=
  ratTotalF_le_left _ a b

theorem ratTotal_le_right (a b : List Char) : ratTotal a b ≤ b.length :=
  ratTotalF_le_right _ a b

theorem calcRatioVal_double (n : Nat) : calcRatioVal n (n + n) = 1 := by
  unfold calcRatioVal
  by_cases h : n = 0
  · subst h; simp
  · rw [if_neg (by omega : n + n ≠ 0)]
    have hn : ((n + n : Nat) : ℚ) = 2 * (n : ℚ) := by push_cast; ring
    rw [hn]
    exact div_self (mul_ne_zero two_ne_zero (Nat.cast_ne_zero.mpr h))

theorem ratioVal_self (a : List Char) : ratioVal a a = 1 := by
  unfold ratioVal
  rw [ratTotal_self]
  exact calcRatioVal_double _

theorem ratioVal_le_one (a b : List Char) : ratioVal a b ≤ 1 := by
  unfold ratioVal calcRatioVal
  split
  · exact le_refl 1
  · next h =>
    rw [div_le_one (by exact_mod_cast Nat.pos_of_ne_zero h)]
    have hm : 2 * ratTotal a b ≤ a.length + b.length := by
      have l1 := ratTotal_le_left a b
      have l2 := ratTotal_le_right a b
      omega
    exact_mod_cast hm

theorem ratioVal_eq_one (a b : List Char) (h : ratioVal a b = 1) : a = b := by
  unfold ratioVal calcRatioVal at h
  split at h
  · next h0 =>
    rw [List.length_eq_zero.mp (by omega : a.length = 0),
      List.length_eq_zero.mp (by omega : b.length = 0)]
  · next h0 =>
    have hpos : (0 : ℚ) < ((a.length + b.length : Nat) : ℚ) := by
      exact_mod_cast Nat.pos_of_ne_zero h0
    rw [div_eq_one_iff_eq (ne_of_gt hpos)] at h
    have hne : 2 * ratTotal a b = a.length + b.length := by exact_mod_cast h
    have l1 := ratTotal_le_left a b
    have l2 := ratTotal_le_right a b
    exact ratTotal_full_eq a b (by omega) (by omega)

theorem ratioVal_lt_one_of_ne (a b : List Char) (h : a ≠ b) : ratioVal a b < 1 :=
  lt_of_le_of_ne (ratioVal_le_one a b) (fun he => h (ratioVal_eq_one a b he))

theorem foldl_add_map (f : Char → Nat) :
    ∀ (l : List Char) (n : Nat), l.foldl (fun acc c => acc + f c) n = n + (l.map f).sum := by
  intro l
  induction l with
  | nil => intro n; simp
  | cons x xs ih =>
    intro n
    rw [List.foldl_cons, ih, List.map_cons, List.sum_cons]
    omega

theorem sum_map_count_cons (a : Char) (l : List Char) :
    ∀ (L : List Char),
      (L.map (fun c => (a :: l).count c)).sum = (L.map (fun c => l.count c)).sum + L.count a := by
  intro L
  induction L with
  | nil => simp
  | cons x xs ih =>
    rw [List.map_cons, List.sum_cons, List.map_cons, List.sum_cons, ih,
      List.count_cons, List.count_cons]
    simp only [beq_iff_eq]
    by_cases h : x = a
    · subst h
      simp only [if_pos rfl]
      omega
    · rw [if_neg h, if_neg (fun he : a = x => h he.symm)]
      omega

theorem sum_count_dedup (l : List Char) : (l.dedup.map (fun c => l.count c)).sum = l.length := by
  induction l with
  | nil => simp
  | cons a l ih =>
    by_cases h : a ∈ l
    · rw [List.dedup_cons_of_mem h, sum_map_count_cons a l l.dedup, ih]
      have hone : l.dedup.count a = 1 := by rw [List.count_dedup]; simp [h]
      rw [hone, List.length_cons]
    · rw [List.dedup_cons_of_not_mem h]
      simp only [List.map_cons, List.sum_cons]
      rw [sum_map_count_cons a l l.dedup, ih]
      have h0 : l.dedup.count a = 0 := by rw [List.count_dedup]; simp [h]
      have hc : (a :: l).count a = l.count a + 1 := by simp [List.count_cons]
      have hz : l.count a = 0 := List.count_eq_zero.mpr h
      rw [hc, hz, h0, List.length_cons]
      omega

theorem quickRatioTotal_self (a : List Char) : quickRatioTotal a a = a.length := by
  unfold quickRatioTotal
  rw [foldl_add_map (fun c => min (a.count c) (a.count c)) a.dedup 0]
  simp only [Nat.min_self, Nat.zero_add]
  exact sum_count_dedup a

theorem quickRatioVal_self (a : List Char) : quickRatioVal a a = 1 := by
  unfold quickRatioVal
  rw [quickRatioTotal_self]
  exact calcRatioVal_double _

theorem realQuickRatioVal_self (a : List Char) : realQuickRatioVal a a = 1 := by
  unfold realQuickRatioVal
  rw [Nat.min_self]
  exact calcRatioVal_double _

theorem strLtChars_irrefl : ∀ cs : List Char, strLtChars cs cs = false := by
  intro cs
  induction cs with
  | nil => rfl
  | cons c cs ih => simp [strLtChars, lt_irrefl, ih]

theorem gcmFold_mem (word : List Char) :
    ∀ (cands : List (List Char)) (acc : Option (List Char)) (m : List Char),
      cands.foldl (gcmStep word) acc = some m → acc = some m ∨ m ∈ cands := by
  intro cands
  induction cands with
  | nil => intro acc m h; exact Or.inl h
  | cons x rest ih =>
    intro acc m h
    rw [List.foldl_cons] at h
    rcases ih _ m h with hstep | hmem
    · unfold gcmStep at hstep
      cases acc with
      | none =>
        simp only at hstep
        exact Or.inr (by rw [← Option.some.injEq _ m |>.mp hstep]; exact List.mem_cons_self x rest)
      | some y =>
        simp only at hstep
        split at hstep
        · exact Or.inr (by rw [← Option.some.injEq _ m |>.mp hstep]; exact List.mem_cons_self x rest)
        · exact Or.inl hstep
    · exact Or.inr (List.mem_cons_of_mem x hmem)

theorem gcmPick_mem (word : List Char) (cands : List (List Char)) (m : List Char)
    (h : gcmPick word cands = some m) : m ∈ cands := by
  rcases gcmFold_mem word cands none m h with hno | hmem
  · exact absurd hno (by simp)
  · exact hmem

theorem gcmFold_some_isSome (word : List Char) :
    ∀ (cands : List (List Char)) (y : List Char),
      (cands.foldl (gcmStep word) (some y)).isSome = true := by
  intro cands
  induction cands with
  | nil => intro y; rfl
  | cons x rest ih =>
    intro y
    rw [List.foldl_cons]
    show (rest.foldl (gcmStep word) (gcmStep word (some y) x)).isSome = true
    unfold gcmStep
    simp only
    split
    · exact ih x
    · exact ih y

theorem gcmPick_none (word : List Char) (cands : List (List Char))
    (h : gcmPick word cands = none) : cands = [] := by
  cases cands with
  | nil => rfl
  | cons x rest =>
    exfalso
    unfold gcmPick at h
    rw [List.foldl_cons] at h
    have hx : gcmStep word none x = some x := rfl
    rw [hx] at h
    have hs := gcmFold_some_isSome word rest x
    rw [h] at hs
    simp at hs

theorem gcmFold_picks_self (word : List Char) :
    ∀ (cands : List (List Char)) (acc : Option (List Char)),
      (∀ x ∈ cands, ratioVal x word < 1 ∨ x = word) →
      (acc = some word ∨
        ((acc = none ∨ ∃ y, acc = some y ∧ ratioVal y word < 1) ∧ word ∈ cands)) →
      cands.foldl (gcmStep word) acc = some word := by
  intro cands
  induction cands with
  | nil =>
    intro acc hall hacc
    rcases hacc with h | ⟨_, hmem⟩
    · simpa using h
    · cases hmem
  | cons x rest ih =>
    intro acc hall hacc
    rw [List.foldl_cons]
    have hx := hall x (List.mem_cons_self x rest)
    rcases hacc with hacc | ⟨hweak, hmem⟩
    · subst hacc
      apply ih _ (fun z hz => hall z (List.mem_cons_of_mem x hz))
      left
      unfold gcmStep
      simp only
      rcases hx with hlt | heq
      · rw [if_neg]
        intro hcon
        rcases hcon with h1 | ⟨h2, _⟩
        · rw [ratioVal_self] at h1
          exact absurd (lt_trans h1 hlt) (lt_irrefl 1)
        · rw [ratioVal_self] at h2
          rw [← h2] at hlt
          exact absurd hlt (lt_irrefl 1)
      · subst heq
        rw [if_neg]
        intro hcon
        rcases hcon with h1 | ⟨_, h3⟩
        · exact absurd h1 (lt_irrefl _)
        · rw [strLtChars_irrefl] at h3
          exact Bool.false_ne_true h3
    · by_cases hxw : x = word
      · subst hxw
        apply ih _ (fun z hz => hall z (List.mem_cons_of_mem x hz))
        left
        rcases hweak with hnone | ⟨y, hy, hylt⟩
        · rw [hnone]
          rfl
        · rw [hy]
          unfold gcmStep
          simp only
          rw [if_pos]
          left
          rw [ratioVal_self]
          exact hylt
      · have hmem2 : word ∈ rest := by
          rcases List.mem_cons.mp hmem with heq | hr
          · exact absurd heq.symm hxw
          · exact hr
        apply ih _ (fun z hz => hall z (List.mem_cons_of_mem x hz))
        right
        refine ⟨?_, hmem2⟩
        have hxlt : ratioVal x word < 1 := by
          rcases hx with h | h
          · exact h
          · exact absurd h hxw
        rcases hweak with hnone | ⟨y, hy, hylt⟩
        · rw [hnone]
          right
          exact ⟨x, rfl, hxlt⟩
        · rw [hy]
          right
          unfold gcmStep
          simp only
          split
          · exact ⟨x, rfl, hxlt⟩
          · exact ⟨y, rfl, hylt⟩

theorem gcmPick_eq_self (word : List Char) (cands : List (List Char))
    (hmem : word ∈ cands) (hall : ∀ x ∈ cands, ratioVal x word < 1 ∨ x = word) :
    gcmPick word cands = some word :=
  gcmFold_picks_self word cands none hall (Or.inr ⟨Or.inl rfl, hmem⟩)

/-! ## Lemmas about the dispatcher model -/

theorem startsWith_book_ne_show {s : String} (h : pyStartsWith "book" s = true) :
    s ≠ "show_slots" := by
  intro he
  subst he
  exact absurd h (by decide)

theorem pyListGet_natCast {α : Type} (l : List α) (i : Nat) : pyListGet l (i : Int) = l[i]? := by
  unfold pyListGet
  rw [if_pos (by exact_mod_cast Nat.zero_le i : (0 : Int) ≤ (i : Int))]
  rw [Int.toNat_ofNat]

theorem pyListGet_zero {α : Type} (l : List α) : pyListGet l 0 = l[0]? := by
  unfold pyListGet
  rw [if_pos (le_refl (0 : Int))]
  rfl

theorem create_record_first_ok (recA : BookingRequest → Nat → Except Unit Bool)
    (req : BookingRequest) (flag : Bool) (h : recA req 0 = .ok flag) :
    Vox.create_record recA req = .ok flag := by
  simp [Vox.create_record, Vox.retry_request, Vox.retryAux, h]

theorem get_slots_all_fail (slotA : String → String → Nat → Except Unit (List Slot))
    (sid stf : String) (h : ∀ n, slotA sid stf n = .error ()) :
    Vox.get_slots slotA sid stf = .error () := by
  simp [Vox.get_slots, Vox.retry_request, Vox.retryAux, h 0, h 1, h 2]

/-! ## Claims -/

/-- C5: the retry wrapper with three attempts and base delay `d`: an
operation failing on attempts 1 and 2 and succeeding on attempt 3 returns the
attempt-3 result, is invoked three times, and is delayed `d` before attempt 2
and `2 * d` before attempt 3 (matching `baseDelay * 2 ^ (i - 2)` before
attempt `i`); an operation failing on all three attempts is invoked exactly
three times and the last error is propagated. -/
theorem c5_thm {ε α : Type} (outcomes : Nat → Except ε α) (d : Nat) :
    (∀ e0 e1 a, outcomes 0 = .error e0 → outcomes 1 = .error e1 → outcomes 2 = .ok a →
      Vox.retry_request outcomes 3 d = (.val a, 3, [d, 2 * d])) ∧
    (∀ e0 e1 e2, outcomes 0 = .error e0 → outcomes 1 = .error e1 → outcomes 2 = .error e2 →
      Vox.retry_request outcomes 3 d = (.exn e2, 3, [d, 2 * d])) := by
  constructor
  · intro e0 e1 a h0 h1 h2
    simp [Vox.retry_request, Vox.retryAux, h0, h1, h2]
    ring
  · intro e0 e1 e2 h0 h1 h2
    simp [Vox.retry_request, Vox.retryAux, h0, h1, h2]
    ring

/-- C5 witness: a concrete operation failing twice then succeeding, and one
failing on every attempt, with base delay 1. -/
theorem c5_witness :
    Vox.retry_request (fun i => if i < 2 then (.error () : Except Unit Nat) else .ok 7) 3 1 =
      (.val 7, 3, [1, 2]) ∧
    Vox.retry_request (fun _ => (.error () : Except Unit Nat)) 3 1 = (.exn (), 3, [1, 2]) :=
  ⟨(c5_thm _ 1).1 () () 7 rfl rfl rfl, (c5_thm _ 1).2 () () () rfl rfl rfl⟩

/-- C6 counterexample: for the non-JSON model output " привет " (with
surrounding whitespace) the fallback directive's text is the stripped string,
not the raw output verbatim, refuting the claim as stated.  The parse oracle
returns `none` on every input, as Python's `json.loads` does on this text. -/
theorem c6_counterexample :
    Vox.ask_gpt (fun _ => none) " привет " = .obj (some "say") (some "привет") (some []) ∧
    "привет" ≠ " привет " := ⟨rfl, by decide⟩

/-- C6 (amended): for every model output string whose stripped form fails
JSON parsing, intent resolution returns a directive with tag `say` whose text
equals the raw model output stripped of leading and trailing whitespace. -/
theorem c6_thm (jsonLoads : String → Option Vox.PyJson) (raw : String)
    (h : jsonLoads (pyStripWs raw) = none) :
    Vox.ask_gpt jsonLoads raw = .obj (some "say") (some (pyStripWs raw)) (some []) := by
  simp only [Vox.ask_gpt, h]

/-- C6 witness: a concrete unparseable output. -/
theorem c6_witness :
    Vox.ask_gpt (fun _ => none) "здравствуйте!" =
      .obj (some "say") (some (pyStripWs "здравствуйте!")) (some []) :=
  c6_thm (fun _ => none) "здравствуйте!" rfl

/-- C3 counterexample: a `book(0)` directive with no cached slot list makes
no booking request at all and replies with the directive's own text, which is
neither the success nor the failure phrase — refuting the claim that a
default booking is still created. -/
theorem c3_counterexample :
    Vox.handle_action ⟨["1"], ["2"]⟩ (fun _ _ _ => .ok []) (fun _ _ => .ok true) none
        "79990001122" "cid" 0 "book(0)" "хорошо, записываю" =
      .ok { reply := "хорошо, записываю", bookings := [], slotsCached := none,
            cacheTtl := none, choice? := none } ∧
    "хорошо, записываю" ≠ "Запись успешно создана!" ∧
    "хорошо, записываю" ≠ "Не удалось создать запись." :=
  ⟨rfl, by decide, by decide⟩

/-- C3 (amended): for every book directive arriving when no cached slot list
exists for the call id, the dispatcher skips the booking branch entirely: no
booking creation is invoked, no error is raised, and the reply is the
directive's own text. -/
theorem c3_thm (cfg : Vox.Config)
    (slotA : String → String → Nat → Except Unit (List Slot))
    (recA : BookingRequest → Nat → Except Unit Bool)
    (caller callid act text : String) (now : Nat)
    (hstart : pyStartsWith "book" act = true) :
    Vox.handle_action cfg slotA recA none caller callid now act text =
      .ok { reply := text, bookings := [], slotsCached := none, cacheTtl := none,
            choice? := none } := by
  have hne := startsWith_book_ne_show hstart
  unfold Vox.handle_action
  rw [if_neg hne, if_pos hstart]

/-- C3 witness: a concrete `book(2)` directive with an absent cache. -/
theorem c3_witness :
    Vox.handle_action ⟨["9"], ["8"]⟩ (fun _ _ _ => .ok []) (fun _ _ => .ok false) none
        "7123" "call7" 5 "book(2)" "ответ" =
      .ok { reply := "ответ", bookings := [], slotsCached := none, cacheTtl := none,
            choice? := none } :=
  c3_thm _ _ _ _ _ _ _ _ rfl

/-- C1 counterexample: `book(1)` against a cached 3-slot list where slot 1
carries service id "sB", staff id "tB" and timestamp 2000 — the booking
request actually sent uses the first configured service id "svc1", the first
configured staff id "stf1" and the timestamp now + 3600, none of which come
from the chosen slot; the claim that the booking request uses the slot at
index 1 is refuted (the success/failure phrase part does hold). -/
theorem c1_counterexample :
    Vox.handle_action ⟨["svc1"], ["stf1"]⟩ (fun _ _ _ => .ok []) (fun _ _ => .ok true)
        (some [⟨some "10:00", "sA", "tA", 1000⟩, ⟨some "10:30", "sB", "tB", 2000⟩,
               ⟨some "11:00", "sC", "tC", 3000⟩])
        "79990001122" "cid" 0 "book(1)" "txt" =
      .ok { reply := "Запись успешно создана!",
            bookings := [⟨"79990001122", "Гость", "svc1", "stf1", 3600, "cid"⟩],
            slotsCached := none, cacheTtl := none,
            choice? := some ⟨some "10:30", "sB", "tB", 2000⟩ } ∧
    ("svc1" : String) ≠ "sB" ∧ ("stf1" : String) ≠ "tB" ∧ (3600 : Nat) ≠ 2000 :=
  ⟨rfl, by decide, by decide, by decide⟩

/-- C1 (amended): for a `book(i)` directive with a cached slot list of length
greater than `i`, the dispatcher selects the slot at index `i` (the `choice`
local) but the booking request sent to the scheduling provider ignores it:
it uses the first configured service id, the first configured staff id, the
caller as phone, the call id as idempotency tag, and a timestamp one hour
after the current time; the reply is the fixed success phrase when the
provider's success flag is true and the fixed failure phrase when false. -/
theorem c1_thm (cfg : Vox.Config)
    (slotA : String → String → Nat → Except Unit (List Slot))
    (recA : BookingRequest → Nat → Except Unit Bool)
    (slots : List Slot) (i : Nat) (caller callid act text : String) (now : Nat) (flag : Bool)
    (sid0 stf0 : String)
    (hsvc : cfg.service_ids[0]? = some sid0)
    (hstf : cfg.staff_ids[0]? = some stf0)
    (hstart : pyStartsWith "book" act = true)
    (hparse : Vox.parseBookArg act = some (i : Int))
    (hi : i < slots.length)
    (hrec : recA { phone := caller, fullname := "Гость", service_id := sid0, staff_id := stf0,
                   ts_unix := now + 3600, api_id := callid } 0 = .ok flag) :
    Vox.handle_action cfg slotA recA (some slots) caller callid now act text =
      .ok { reply := if flag then "Запись успешно создана!" else "Не удалось создать запись.",
            bookings := [{ phone := caller, fullname := "Гость", service_id := sid0,
                           staff_id := stf0, ts_unix := now + 3600, api_id := callid }],
            slotsCached := none, cacheTtl := none, choice? := some slots[i] } := by
  have hne := startsWith_book_ne_show hstart
  have hcast : (i : Int) < (slots.length : Int) := by exact_mod_cast hi
  have hrec2 := create_record_first_ok recA _ flag hrec
  unfold Vox.handle_action
  rw [if_neg hne, if_pos hstart]
  simp only [hparse, if_pos hcast, pyListGet_natCast, List.getElem?_eq_getElem hi,
    hsvc, hstf, hrec2]

/-- C1 witness: the amended theorem at the counterexample's concrete input. -/
theorem c1_witness :
    Vox.handle_action ⟨["svcX"], ["stfY"]⟩ (fun _ _ _ => .ok []) (fun _ _ => .ok false)
        (some [⟨some "12:00", "s1", "t1", 100⟩, ⟨some "12:30", "s2", "t2", 200⟩])
        "7111" "cidZ" 50 "book(1)" "txt" =
      .ok { reply := "Не удалось создать запись.",
            bookings := [⟨"7111", "Гость", "svcX", "stfY", 3650, "cidZ"⟩],
            slotsCached := none, cacheTtl := none,
            choice? := some ⟨some "12:30", "s2", "t2", 200⟩ } :=
  c1_thm ⟨["svcX"], ["stfY"]⟩ (fun _ _ _ => .ok []) (fun _ _ => .ok false)
    [⟨some "12:00", "s1", "t1", 100⟩, ⟨some "12:30", "s2", "t2", 200⟩] 1
    "7111" "cidZ" "book(1)" "txt" 50 false "svcX" "stfY"
    rfl rfl rfl rfl (by decide) rfl

/-- C7 counterexample: a `book(0)` directive with an existing but empty
cached slot list (index 0 ≥ cached count 0) raises an IndexError instead of
resolving to slot 0 and booking, refuting the claim that no error is
raised. -/
theorem c7_counterexample :
    Vox.handle_action ⟨["1"], ["2"]⟩ (fun _ _ _ => .ok []) (fun _ _ => .ok true) (some [])
        "79990001122" "cid" 0 "book(0)" "txt" = .error () := rfl

/-- C7 (amended): for a `book` directive whose index is at least the length
of a nonempty cached slot list, the dispatcher resolves the choice to slot 0
and proceeds with booking (against the configured default ids), producing a
success/failure reply and raising no error. -/
theorem c7_thm (cfg : Vox.Config)
    (slotA : String → String → Nat → Except Unit (List Slot))
    (recA : BookingRequest → Nat → Except Unit Bool)
    (slots : List Slot) (i : Nat) (caller callid act text : String) (now : Nat) (flag : Bool)
    (sid0 stf0 : String)
    (hsvc : cfg.service_ids[0]? = some sid0)
    (hstf : cfg.staff_ids[0]? = some stf0)
    (hstart : pyStartsWith "book" act = true)
    (hparse : Vox.parseBookArg act = some (i : Int))
    (hlen : slots.length ≤ i)
    (h0 : 0 < slots.length)
    (hrec : recA { phone := caller, fullname := "Гость", service_id := sid0, staff_id := stf0,
                   ts_unix := now + 3600, api_id := callid } 0 = .ok flag) :
    Vox.handle_action cfg slotA recA (some slots) caller callid now act text =
      .ok { reply := if flag then "Запись успешно создана!" else "Не удалось создать запись.",
            bookings := [{ phone := caller, fullname := "Гость", service_id := sid0,
                           staff_id := stf0, ts_unix := now + 3600, api_id := callid }],
            slotsCached := none, cacheTtl := none, choice? := some slots[0] } := by
  have hne := startsWith_book_ne_show hstart
  have hcast : ¬ ((i : Int) < (slots.length : Int)) := by exact_mod_cast not_lt.mpr hlen
  have hrec2 := create_record_first_ok recA _ flag hrec
  unfold Vox.handle_action
  rw [if_neg hne, if_pos hstart]
  simp only [hparse, if_neg hcast, pyListGet_zero, List.getElem?_eq_getElem h0,
    hsvc, hstf, hrec2]

/-- C7 witness: `book(5)` against a cached 2-slot list resolves to slot 0 and
books. -/
theorem c7_witness :
    Vox.handle_action ⟨["svcX"], ["stfY"]⟩ (fun _ _ _ => .ok []) (fun _ _ => .ok true)
        (some [⟨some "12:00", "s1", "t1", 100⟩, ⟨some "12:30", "s2", "t2", 200⟩])
        "7111" "cidZ" 50 "book(5)" "txt" =
      .ok { reply := "Запись успешно создана!",
            bookings := [⟨"7111", "Гость", "svcX", "stfY", 3650, "cidZ"⟩],
            slotsCached := none, cacheTtl := none,
            choice? := some ⟨some "12:00", "s1", "t1", 100⟩ } :=
  c7_thm ⟨["svcX"], ["stfY"]⟩ (fun _ _ _ => .ok []) (fun _ _ => .ok true)
    [⟨some "12:00", "s1", "t1", 100⟩, ⟨some "12:30", "s2", "t2", 200⟩] 5
    "7111" "cidZ" "book(5)" "txt" 50 true "svcX" "stfY"
    rfl rfl rfl rfl (by decide) (by decide) rfl

/-- C8 counterexample: the unknown tag "booking" is not one of the known
variants, yet because it starts with "book" it is routed into the booking
branch, where parsing "ing" as an integer raises a ValueError (a cached slot
list being present) — refuting the claim that every unknown tag degrades to
`say` with no error. -/
theorem c8_counterexample :
    Vox.handle_action ⟨["1"], ["2"]⟩ (fun _ _ _ => .ok []) (fun _ _ => .ok true)
        (some [⟨some "10:00", "s", "t", 0⟩]) "79990001122" "cid" 0 "booking" "не понял" =
      .error () := rfl

/-- C8 (amended): for every directive tag other than `show_slots` and
`goodbye` that does not begin with "book", the dispatcher degrades to `say`
behaviour: the reply is the directive's raw text, no scheduling or booking
side effect runs, and no error is raised. -/
theorem c8_thm (cfg : Vox.Config)
    (slotA : String → String → Nat → Except Unit (List Slot))
    (recA : BookingRequest → Nat → Except Unit Bool)
    (cache : Option (List Slot)) (caller callid act text : String) (now : Nat)
    (h1 : act ≠ "show_slots") (h2 : pyStartsWith "book" act = false) (h3 : act ≠ "goodbye") :
    Vox.handle_action cfg slotA recA cache caller callid now act text =
      .ok { reply := text, bookings := [], slotsCached := none, cacheTtl := none,
            choice? := none } := by
  unfold Vox.handle_action
  rw [if_neg h1, if_neg (by simp [h2]), if_neg h3]

/-- C8 witness: the unknown tag "dance" degrades to the raw text. -/
theorem c8_witness :
    Vox.handle_action ⟨["1"], ["2"]⟩ (fun _ _ _ => .ok []) (fun _ _ => .ok true)
        (some [⟨some "10:00", "s", "t", 0⟩]) "7222" "cidW" 9 "dance" "просто текст" =
      .ok { reply := "просто текст", bookings := [], slotsCached := none, cacheTtl := none,
            choice? := none } :=
  c8_thm _ _ _ _ _ _ _ _ _ (by decide) (by decide) (by decide)

/-- C2 counterexample: a `show_slots` turn in which every scheduling attempt
fails (all three retries exhausted) makes the webhook handler terminate with
an uncaught exception — no reply of any kind is produced, refuting the
claimed graceful-degradation reply. -/
theorem c2_counterexample :
    Vox.webhook ⟨["1"], ["2"]⟩ (fun _ _ _ => .error ()) (fun _ _ => .ok true)
        (fun _ => some (.obj (some "show_slots") (some "") (some [])))
        none "SpeechCaptured" "79990001122" "cid" (some "хочу записаться") "{}" 0 =
      .error () := rfl

/-- C2 (amended): for a `show_slots` directive with at least one configured
service id and staff id, if the scheduling client fails on all retry
attempts, the exception propagates out of the webhook handler: the handler
terminates with an error and produces no reply. -/
theorem c2_thm (cfg : Vox.Config)
    (slotA : String → String → Nat → Except Unit (List Slot))
    (recA : BookingRequest → Nat → Except Unit Bool)
    (jsonLoads : String → Option Vox.PyJson)
    (cache : Option (List Slot)) (caller callid t llmRaw : String) (now : Nat)
    (sid : String) (svcs : List String) (stf : String) (stfs : List String)
    (text? : Option String) (hints? : Option (List String))
    (hsvc : cfg.service_ids = sid :: svcs) (hstf : cfg.staff_ids = stf :: stfs)
    (hfail : ∀ s u n, slotA s u n = .error ())
    (ht : t ≠ "")
    (hdir : jsonLoads (pyStripWs llmRaw) = some (.obj (some "show_slots") text? hints?)) :
    Vox.webhook cfg slotA recA jsonLoads cache "SpeechCaptured" caller callid
      (some t) llmRaw now = .error () := by
  have hg : Vox.get_slots slotA sid stf = .error () := get_slots_all_fail slotA sid stf (hfail sid stf)
  unfold Vox.webhook
  rw [if_neg (by decide : ("SpeechCaptured" : String) ≠ "End"), if_pos rfl]
  simp only [if_neg ht, Vox.ask_gpt, hdir]
  unfold Vox.handle_action
  simp only [Option.getD_some, if_true]
  rw [hsvc, hstf]
  simp only [Vox.collect_loop1, Vox.collect_loop2, hg]

/-- C2 witness: the amended theorem at a concrete configuration. -/
theorem c2_witness :
    Vox.webhook ⟨["11", "12"], ["21"]⟩ (fun _ _ _ => .error ()) (fun _ _ => .ok false)
        (fun _ => some (.obj (some "show_slots") (some "вот слоты") none))
        (some []) "SpeechCaptured" "7333" "cidV" (some "покажи слоты") "raw" 77 =
      .error () :=
  c2_thm ⟨["11", "12"], ["21"]⟩ (fun _ _ _ => .error ()) (fun _ _ => .ok false)
    (fun _ => some (.obj (some "show_slots") (some "вот слоты") none))
    (some []) "7333" "cidV" "покажи слоты" "raw" 77 "11" ["12"] "21" []
    (some "вот слоты") none rfl rfl (fun _ _ _ => rfl) (by decide) rfl

/-- Exact case-insensitive FAQ hits are answered: shared auxiliary for the
FAQ-matcher claims. -/
theorem find_faq_exact (faq : List FaqEntry) (user : String) (c : ℚ)
    (hc : c ≤ 1) (e : FaqEntry) (he : e ∈ faq) (hq : pyLower e.question = pyLower user) :
    ∃ e2 ∈ faq, pyLower e2.question = pyLower user ∧
      Main.find_faq_answer faq user c = some e2.answer := by
  have hunQ : (pyLower user).data ∈ faq.map (fun q => (pyLower q.question).data) :=
    List.mem_map.mpr ⟨e, he, by rw [hq]⟩
  have hin : (pyLower user).data ∈
      gcmCandidates ((pyLower user).data) (faq.map (fun q => (pyLower q.question).data)) c := by
    unfold gcmCandidates
    rw [List.mem_filter]
    refine ⟨hunQ, ?_⟩
    rw [realQuickRatioVal_self, quickRatioVal_self, ratioVal_self]
    simp [hc]
  have hall : ∀ x ∈
      gcmCandidates ((pyLower user).data) (faq.map (fun q => (pyLower q.question).data)) c,
      ratioVal x ((pyLower user).data) < 1 ∨ x = (pyLower user).data := by
    intro x _
    by_cases hx : x = (pyLower user).data
    · exact Or.inr hx
    · exact Or.inl (ratioVal_lt_one_of_ne x _ hx)
  have hpick : gcmPick ((pyLower user).data)
      (gcmCandidates ((pyLower user).data) (faq.map (fun q => (pyLower q.question).data)) c) =
      some ((pyLower user).data) :=
    gcmPick_eq_self _ _ hin hall
  have hsome : (faq.find? (fun q => decide ((pyLower q.question).data =
      (pyLower user).data))).isSome := by
    rw [List.find?_isSome]
    exact ⟨e, he, by simp [hq]⟩
  obtain ⟨q, hfq⟩ := Option.isSome_iff_exists.mp hsome
  have hqmem : q ∈ faq := List.mem_of_find?_eq_some hfq
  have hqeq : (pyLower q.question).data = (pyLower user).data := by
    have := List.find?_some hfq
    simpa using this
  refine ⟨q, hqmem, stringDataInj hqeq, ?_⟩
  simp only [Main.find_faq_answer, hpick, hfq]

/-- Raising the cutoff preserves a no-match outcome: shared auxiliary for the
FAQ-matcher claims. -/
theorem find_faq_none_mono (faq : List FaqEntry) (user : String) (c c' : ℚ)
    (hcc : c ≤ c') (hnone : Main.find_faq_answer faq user c = none) :
    Main.find_faq_answer faq user c' = none := by
  rcases hp : gcmPick ((pyLower user).data)
      (gcmCandidates ((pyLower user).data) (faq.map (fun q => (pyLower q.question).data)) c)
    with _ | m
  · have hnil := gcmPick_none _ _ hp
    have hnil' : gcmCandidates ((pyLower user).data)
        (faq.map (fun q => (pyLower q.question).data)) c' = [] := by
      unfold gcmCandidates at hnil ⊢
      rw [List.filter_eq_nil_iff] at hnil ⊢
      intro x hx hcon
      apply hnil x hx
      simp only [Bool.and_eq_true, decide_eq_true_eq] at hcon ⊢
      exact ⟨⟨le_trans hcc hcon.1.1, le_trans hcc hcon.1.2⟩, le_trans hcc hcon.2⟩
    simp only [Main.find_faq_answer, hnil', gcmPick, List.foldl_nil]
  · exfalso
    have hm := gcmPick_mem _ _ _ hp
    have hmQ : m ∈ faq.map (fun q => (pyLower q.question).data) := by
      unfold gcmCandidates at hm
      exact (List.mem_filter.mp hm).1
    obtain ⟨q, hqf, hqm⟩ := List.mem_map.mp hmQ
    have hsome : (faq.find? (fun q => decide ((pyLower q.question).data = m))).isSome := by
      rw [List.find?_isSome]
      exact ⟨q, hqf, by simp [hqm]⟩
    obtain ⟨q2, hq2⟩ := Option.isSome_iff_exists.mp hsome
    simp only [Main.find_faq_answer, hp, hq2] at hnone
    exact Option.noConfusion hnone

/-- C9: for a fixed FAQ corpus, (a) any user text identical up to case to a
stored question is answered with the answer paired to a stored question that
is case-identical to the user text (for any cutoff at most 1), and (b) the
matcher is monotone in the cutoff: whenever it returns none at cutoff `c`, it
also returns none at any cutoff `c' ≥ c`, so raising the cutoff never
increases the match rate. -/
theorem c9_thm (faq : List FaqEntry) (user : String) (c c' : ℚ) :
    (c ≤ 1 → ∀ e ∈ faq, pyLower e.question = pyLower user →
      ∃ e2 ∈ faq, pyLower e2.question = pyLower user ∧
        Main.find_faq_answer faq user c = some e2.answer) ∧
    (c ≤ c' → Main.find_faq_answer faq user c = none →
      Main.find_faq_answer faq user c' = none) :=
  ⟨fun hc e he hq => find_faq_exact faq user c hc e he hq,
   fun hcc hnone => find_faq_none_mono faq user c c' hcc hnone⟩

/-- C9 witness: an exact case-insensitive match at the default cutoff, and
monotone none-preservation from cutoff 3/5 up to 1 on an empty corpus. -/
theorem c9_witness :
    (∃ e2 ∈ [(⟨"Где вы?", "адрес"⟩ : FaqEntry)], pyLower e2.question = pyLower "ГДЕ ВЫ?" ∧
      Main.find_faq_answer [(⟨"Где вы?", "адрес"⟩ : FaqEntry)] "ГДЕ ВЫ?" (3 / 5) =
        some e2.answer) ∧
    Main.find_faq_answer [] "ззз" 1 = none := by
  constructor
  · exact (c9_thm [⟨"Где вы?", "адрес"⟩] "ГДЕ ВЫ?" (3 / 5) 1).1 (by norm_num)
      ⟨"Где вы?", "адрес"⟩ (by simp) (by decide)
  · exact (c9_thm [] "ззз" (3 / 5) 1).2 (by norm_num) rfl

/-- C10: when the FAQ matcher answers the recognized text, the main.py
webhook replies with that answer, requests no language-model completion, and
leaves the session store completely unchanged. -/
theorem c10_thm (faq : List FaqEntry) (prompt : String) (llm : List Main.Msg → String)
    (st : Main.State) (event caller u ans : String) (now : Nat)
    (hev : event ≠ "End") (hu : u ≠ "")
    (hfaq : Main.find_faq_answer faq u (3 / 5) = some ans) :
    Main.webhook faq prompt llm st event caller (some u) now =
      { response := .spoken ans, state := st, llmCalls := 0 } := by
  unfold Main.webhook
  rw [if_neg hev]
  simp only [if_neg hu, hfaq]

/-- C10 witness: a concrete FAQ-answered turn with a nonempty session left
untouched. -/
theorem c10_witness :
    Main.webhook [(⟨"Где вы?", "адрес"⟩ : FaqEntry)] "prompt" (fun _ => "llm")
        ⟨fun _ => [⟨"user", "старый ход"⟩], fun _ => some 1⟩
        "SpeechCaptured" "7999" (some "где вы?") 42 =
      { response := .spoken "адрес",
        state := ⟨fun _ => [⟨"user", "старый ход"⟩], fun _ => some 1⟩, llmCalls := 0 } := by
  have hfaq : Main.find_faq_answer [(⟨"Где вы?", "адрес"⟩ : FaqEntry)] "где вы?" (3 / 5) =
      some "адрес" := by
    obtain ⟨e2, he2, -, hfind⟩ := find_faq_exact [⟨"Где вы?", "адрес"⟩] "где вы?" (3 / 5)
      (by norm_num) ⟨"Где вы?", "адрес"⟩ (by simp) (by decide)
    rw [List.mem_singleton] at he2
    subst he2
    exact hfind
  exact c10_thm [⟨"Где вы?", "адрес"⟩] "prompt" (fun _ => "llm")
    ⟨fun _ => [⟨"user", "старый ход"⟩], fun _ => some 1⟩ "SpeechCaptured" "7999" "где вы?"
    "адрес" 42 (by decide) (by decide) hfaq

/-- C4: the session TTL is declared as 300 seconds but never enforced — a
lookup made 301 seconds after the only turn (strictly beyond the TTL) still
sees the full turn history, and the messages sent to the model include the
stale turn; the turn history therefore does not expire as the claim states. -/
theorem c4_thm :
    Main.SESSION_TTL = 300 ∧ 300 < 301 ∧
    (Main.update_session ⟨fun _ => [], fun _ => none⟩ "79991234567" "user" "здравствуйте" 0).sessions
        "79991234567" = [⟨"user", "здравствуйте"⟩] ∧
    (Main.ask_gpt (fun _ => "ок") ""
        (Main.update_session ⟨fun _ => [], fun _ => none⟩ "79991234567" "user" "здравствуйте" 0)
        "79991234567" "запишите меня" 301).messagesSent =
      [⟨"system", ""⟩, ⟨"user", "здравствуйте"⟩, ⟨"user", "запишите меня"⟩] :=
  ⟨rfl, by decide, by decide, by decide⟩
